import Mathlib

/-!
Verification of the leave-text parsing and boundary-splitting engine of
`src/Leave.py` (HRMS-leave-Extractor).

The development shallowly embeds the three core functions of the source:

* `get_half_day_value` — regex search for a `DD/MM/YYYY` date immediately
  followed by an `FN`/`AN` session marker, calendar validation (as done by
  `datetime.strptime`), and the half-day encoding
  `toordinal(date) * 2 + (0 for FN, 1 for AN)`;
* `calculate_leave_days` — the inclusive half-day duration
  `(to - from + 1) / 2`, with `NaN` (modelled as `none`) when a date token
  cannot be parsed;
* `parse_and_split_leave` — the clause regex
  `([A-Z]+)\s+([\d.]+)\s+days\s+\((.*?)\)`, the date-authority group regex
  `TOKEN-TOKEN\s*\(([^)]*)\)` applied to each clause body, and the split of
  `LAP`/`LHAP`/`COL` ranges at the `30/09/2025AN` boundary.

Both regexes are embedded as deterministic scanners: every character class in
them is disjoint from the class or literal that follows it, so Python's
backtracking never has an effect and maximal munch is an exact model.
Character classes (`\d`, `\s`, `[A-Z]`) are modelled over ASCII.
The calendar arithmetic mirrors CPython's `datetime` (`_days_before_year`,
`_DAYS_BEFORE_MONTH` table, proleptic Gregorian ordinal).
-/

namespace Leave

/-- Leap year, as in CPython `datetime._is_leap`. -/
def isLeap (y : Nat) : Prop := (y % 4 = 0 ∧ y % 100 ≠ 0) ∨ y % 400 = 0

instance (y : Nat) : Decidable (isLeap y) := by
  unfold isLeap; infer_instance

/-- Days in a month, as in CPython `datetime._days_in_month`. -/
def daysInMonth (y m : Nat) : Nat :=
  if m = 2 then (if isLeap y then 29 else 28)
  else if m = 4 ∨ m = 6 ∨ m = 9 ∨ m = 11 then 30 else 31

/-- Cumulative days before each month in a non-leap year
(CPython `datetime._DAYS_BEFORE_MONTH`, with an entry for month 13 = year end). -/
def monthTable : Nat → Nat
  | 1 => 0
  | 2 => 31
  | 3 => 59
  | 4 => 90
  | 5 => 120
  | 6 => 151
  | 7 => 181
  | 8 => 212
  | 9 => 243
  | 10 => 273
  | 11 => 304
  | 12 => 334
  | 13 => 365
  | _ => 0

/-- Days before the first of month `m` in year `y`
(CPython `datetime._days_before_month`). -/
def daysBeforeMonth (y m : Nat) : Nat :=
  monthTable m + (if 2 < m ∧ isLeap y then 1 else 0)

/-- Days before January 1 of year `y`
(CPython `datetime._days_before_year`; `y = 1` gives 0). -/
def daysBeforeYear (y : Nat) : Nat :=
  (y - 1) * 365 + (y - 1) / 4 + (y - 1) / 400 - (y - 1) / 100

/-- Number of days in year `y`. -/
def daysInYear (y : Nat) : Nat := if isLeap y then 366 else 365

/-- Proleptic Gregorian ordinal of a calendar date, 01/01/0001 being day 1
(CPython `datetime.date.toordinal`). -/
def toordinal (y m d : Nat) : Nat := daysBeforeYear y + daysBeforeMonth y m + d

/-- The calendar dates accepted by `datetime.strptime(s, "%d/%m/%Y")`:
real month lengths, leap years respected, year at least 1. -/
def ValidDate (y m d : Nat) : Prop :=
  1 ≤ y ∧ 1 ≤ m ∧ m ≤ 12 ∧ 1 ≤ d ∧ d ≤ daysInMonth y m

instance (y m d : Nat) : Decidable (ValidDate y m d) := by
  unfold ValidDate; infer_instance

/-- The `date_obj` component returned by `get_half_day_value`. -/
structure DateObj where
  year : Nat
  month : Nat
  day : Nat
deriving DecidableEq

/-- Numeric value of an ASCII digit character. -/
def digitVal (c : Char) : Nat := c.toNat - 48

/-- A raw match of the pattern `(\d{2}/\d{2}/\d{4})(FN|AN)` at the head of the
input: the decoded day, month and year digits plus the session marker. -/
structure Tok where
  day : Nat
  month : Nat
  year : Nat
  isAN : Bool
deriving DecidableEq

/-- Try to match `(\d{2}/\d{2}/\d{4})(FN|AN)` at the start of the character
list (the pattern is 12 characters long). -/
def tokAt : List Char → Option Tok
  | d1 :: d2 :: '/' :: m1 :: m2 :: '/' :: y1 :: y2 :: y3 :: y4 :: s1 :: s2 :: _ =>
    if d1.isDigit ∧ d2.isDigit ∧ m1.isDigit ∧ m2.isDigit ∧
       y1.isDigit ∧ y2.isDigit ∧ y3.isDigit ∧ y4.isDigit ∧
       ((s1 = 'F' ∧ s2 = 'N') ∨ (s1 = 'A' ∧ s2 = 'N')) then
      some ⟨digitVal d1 * 10 + digitVal d2,
            digitVal m1 * 10 + digitVal m2,
            ((digitVal y1 * 10 + digitVal y2) * 10 + digitVal y3) * 10 + digitVal y4,
            s1 = 'A'⟩
    else none
  | _ => none

/-- Leftmost match of the date-token pattern in a character list, as found by
`re.search`. -/
def findTok : List Char → Option Tok
  | [] => none
  | c :: rest =>
    match tokAt (c :: rest) with
    | some t => some t
    | none => findTok rest

/-- `get_half_day_value(date_str)` from `src/Leave.py`: `re.search` for the
date token, `strptime` validation of the date portion, and the half-day
encoding `toordinal * 2 + (0 if FN else 1)`.  A `ValueError` (no match, or an
invalid calendar date) is modelled as `none`. -/
def get_half_day_value (date_str : String) : Option (DateObj × Nat × String) :=
  match findTok date_str.data with
  | none => none
  | some t =>
    if ValidDate t.year t.month t.day then
      some (⟨t.year, t.month, t.day⟩,
            toordinal t.year t.month t.day * 2 + (if t.isAN then 1 else 0),
            if t.isAN then "AN" else "FN")
    else none

/-- `calculate_leave_days(from, to)` from `src/Leave.py`:
`(to_value - from_value + 1) / 2` as an exact rational (Python float division
of an integer by 2 is exact here), with `np.nan` — returned when either token
raises `ValueError` — modelled as `none`. -/
def calculate_leave_days (from_dt_str_full to_dt_str_full : String) : Option ℚ :=
  match get_half_day_value from_dt_str_full, get_half_day_value to_dt_str_full with
  | some (_, from_value, _), some (_, to_value, _) =>
    some (((to_value : ℚ) - (from_value : ℚ) + 1) / 2)
  | _, _ => none

/-! ### The clause and group scanners -/

/-- ASCII uppercase, the class `[A-Z]`. -/
def isUpper (c : Char) : Bool := 'A' ≤ c ∧ c ≤ 'Z'

/-- ASCII whitespace, the class `\s`. -/
def isWs (c : Char) : Bool :=
  c = ' ' ∨ c = '\t' ∨ c = '\n' ∨ c = '\r' ∨ c = '\x0b' ∨ c = '\x0c'

/-- The class `[\d.]`. -/
def isNumDot (c : Char) : Bool := c.isDigit ∨ c = '.'

/-- The lazy tail `(.*?)\)` of the clause pattern: capture up to the first
`)`; `.` does not match a newline, so a newline before the `)` fails the
match. -/
def bodyUpToParen : List Char → Option (List Char × List Char)
  | [] => none
  | c :: r =>
    if c = ')' then some ([], r)
    else if c = '\n' then none
    else
      match bodyUpToParen r with
      | some (b, rest) => some (c :: b, rest)
      | none => none

/-- The tail `\(([^)]*)\)` of the group pattern: capture up to the first `)`
(`[^)]` does match a newline). -/
def authUpToParen : List Char → Option (List Char × List Char)
  | [] => none
  | c :: r =>
    if c = ')' then some ([], r)
    else
      match authUpToParen r with
      | some (b, rest) => some (c :: b, rest)
      | none => none

/-- Match `([A-Z]+)\s+([\d.]+)\s+days\s+\((.*?)\)` at the start of the list,
returning the three captures and the remainder of the input. -/
def matchClauseAt (l : List Char) : Option ((String × String × String) × List Char) :=
  let ty := l.takeWhile isUpper
  let r1 := l.dropWhile isUpper
  if ty.isEmpty then none else
  let w1 := r1.takeWhile isWs
  let r2 := r1.dropWhile isWs
  if w1.isEmpty then none else
  let num := r2.takeWhile isNumDot
  let r3 := r2.dropWhile isNumDot
  if num.isEmpty then none else
  let w2 := r3.takeWhile isWs
  let r4 := r3.dropWhile isWs
  if w2.isEmpty then none else
  match r4 with
  | 'd' :: 'a' :: 'y' :: 's' :: r5 =>
    let w3 := r5.takeWhile isWs
    let r6 := r5.dropWhile isWs
    if w3.isEmpty then none else
    match r6 with
    | '(' :: r7 =>
      match bodyUpToParen r7 with
      | some (body, rest) => some ((⟨ty⟩, ⟨num⟩, ⟨body⟩), rest)
      | none => none
    | _ => none
  | _ => none

/-- `re.findall` scan for the clause pattern: try each start position from the
left; on a match, continue after the matched text.  The fuel argument (the
length of the initial input) only forces termination; each step consumes at
least one character, so it never runs out first. -/
def findClausesAux : Nat → List Char → List (String × String × String)
  | 0, _ => []
  | _ + 1, [] => []
  | fuel + 1, c :: rest =>
    match matchClauseAt (c :: rest) with
    | some (cl, after) => cl :: findClausesAux fuel after
    | none => findClausesAux fuel rest

/-- All matches of `([A-Z]+)\s+([\d.]+)\s+days\s+\((.*?)\)` in the leave text
(`re.findall` on line 44 of `src/Leave.py`). -/
def findClauses (s : String) : List (String × String × String) :=
  findClausesAux s.data.length s.data

/-- Match the date-authority group pattern
`(TOKEN)-(TOKEN)\s*\(([^)]*)\)` at the start of the list, where `TOKEN` is
`\d{2}/\d{2}/\d{4}FN|\d{2}/\d{2}/\d{4}AN`. -/
def matchGroupAt (l : List Char) : Option ((String × String × String) × List Char) :=
  match tokAt l with
  | none => none
  | some _ =>
    match l.drop 12 with
    | '-' :: r2 =>
      match tokAt r2 with
      | none => none
      | some _ =>
        match (r2.drop 12).dropWhile isWs with
        | '(' :: r5 =>
          match authUpToParen r5 with
          | some (auth, rest) => some ((⟨l.take 12⟩, ⟨r2.take 12⟩, ⟨auth⟩), rest)
          | none => none
        | _ => none
    | _ => none

/-- `re.findall` scan for the group pattern. -/
def findGroupsAux : Nat → List Char → List (String × String × String)
  | 0, _ => []
  | _ + 1, [] => []
  | fuel + 1, c :: rest =>
    match matchGroupAt (c :: rest) with
    | some (g, after) => g :: findGroupsAux fuel after
    | none => findGroupsAux fuel rest

/-- All date-authority groups of a clause body (`re.findall` on line 49 of
`src/Leave.py`). -/
def findGroups (s : String) : List (String × String × String) :=
  findGroupsAux s.data.length s.data

/-! ### Rows, records, and the splitter -/

/-- One input row (the fields `parse_and_split_leave` reads). -/
structure Row where
  name : String
  hrms_id : String
  ipas_no : String
  designation : String
  leave_details : String
deriving DecidableEq

/-- One output record (the dictionaries appended to `records`). -/
structure Record where
  name : String
  hrms_id : String
  ipas_no : String
  designation : String
  leave_type : String
  from_date : String
  to_date : String
  leave_days : Option ℚ
  sanction_authority : String
deriving DecidableEq

/-- Build one output record from a row's identity fields. -/
def mkRecord (r : Row) (leave_type from_date to_date : String)
    (leave_days : Option ℚ) (sanction_authority : String) : Record :=
  ⟨r.name, r.hrms_id, r.ipas_no, r.designation, leave_type,
   from_date, to_date, leave_days, sanction_authority⟩

/-- Python `str.split(")")`: split into the runs between `)` characters
(never empty as a list; `""` splits to `[""]`). -/
def splitRP : List Char → List (List Char)
  | [] => [[]]
  | c :: r =>
    if c = ')' then [] :: splitRP r
    else
      match splitRP r with
      | h :: t => (c :: h) :: t
      | [] => [[c]]

/-- Python `str.strip()` over ASCII whitespace. -/
def pyStrip (l : List Char) : List Char :=
  ((l.dropWhile isWs).reverse.dropWhile isWs).reverse

/-- Lines 54–58 of `src/Leave.py`: split the raw authority capture on `)`,
strip the first part as the authority id, strip the second part (when
present) as the authority name, and render `f"({id}) {name.strip()}"`. -/
def sanctionOf (authority_raw : String) : String :=
  let auth_parts := splitRP authority_raw.data
  let authority_id := pyStrip (auth_parts.headD [])
  let authority_name := if 1 < auth_parts.length then pyStrip (auth_parts.getD 1 []) else []
  "(" ++ (⟨authority_id⟩ : String) ++ ") " ++ (⟨pyStrip authority_name⟩ : String)

/-- The loop body of `parse_and_split_leave` (lines 51–100 of `src/Leave.py`)
for one date-authority group: decode both tokens (skipping the group on
`ValueError`), then either split at the boundary — for `LAP`/`LHAP`/`COL`
ranges with `from_value ≤ boundary < to_value` — or emit the single
unsplit segment. -/
def processGroup (row : Row) (leave_type : String) (sept_30_an_boundary_val : Nat)
    (from_dt_str_full to_dt_str_full authority_raw : String) : List Record :=
  let sanction_authority := sanctionOf authority_raw
  match get_half_day_value from_dt_str_full, get_half_day_value to_dt_str_full with
  | some (_, from_value, _), some (_, to_value, _) =>
    if (leave_type ∈ (["LAP", "LHAP", "COL"] : List String)) ∧
        from_value ≤ sept_30_an_boundary_val ∧ to_value > sept_30_an_boundary_val then
      [ mkRecord row leave_type from_dt_str_full "30/09/2025AN"
          (calculate_leave_days from_dt_str_full "30/09/2025AN") sanction_authority,
        mkRecord row leave_type "01/10/2025FN" to_dt_str_full
          (calculate_leave_days "01/10/2025FN" to_dt_str_full) sanction_authority ]
    else
      [ mkRecord row leave_type from_dt_str_full to_dt_str_full
          (calculate_leave_days from_dt_str_full to_dt_str_full) sanction_authority ]
  | _, _ => []

/-- `parse_and_split_leave(row)` from `src/Leave.py`: compute the boundary
value (returning no records if that fails), extract the clauses, extract each
clause's date-authority groups, and process every group. -/
def parse_and_split_leave (row : Row) : List Record :=
  match get_half_day_value "30/09/2025AN" with
  | none => []
  | some (_, sept_30_an_boundary_val, _) =>
    (findClauses row.leave_details).flatMap fun cl =>
      (findGroups cl.2.2).flatMap fun g =>
        processGroup row cl.1 sept_30_an_boundary_val g.1 g.2.1 g.2.2

/-- The half-day value of the 30/09/2025 afternoon boundary. -/
def boundaryVal : Nat := 1479049

theorem boundary_val_spec :
    get_half_day_value "30/09/2025AN" = some (⟨2025, 9, 30⟩, boundaryVal, "AN") := by
  decide

theorem oct_1_fn_spec :
    get_half_day_value "01/10/2025FN" = some (⟨2025, 10, 1⟩, boundaryVal + 1, "FN") := by
  decide

/-! ### Calendar arithmetic: the half-day encoding is injective -/

set_option maxHeartbeats 3200000 in
theorem daysBeforeYear_succ (y : Nat) (hy : 1 ≤ y) :
    daysBeforeYear (y + 1) = daysBeforeYear y + daysInYear y := by
  unfold daysBeforeYear daysInYear
  by_cases hl : isLeap y
  · rw [if_pos hl]
    unfold isLeap at hl
    omega
  · rw [if_neg hl]
    unfold isLeap at hl
    omega

theorem daysBeforeYear_mono {a b : Nat} (ha : 1 ≤ a) (h : a ≤ b) :
    daysBeforeYear a ≤ daysBeforeYear b := by
  induction b, h using Nat.le_induction with
  | base => exact Nat.le_refl _
  | succ b hb ih =>
    rw [daysBeforeYear_succ b (by omega)]
    omega

theorem month_day_le {y m d : Nat} (h : ValidDate y m d) :
    daysBeforeMonth y m + d ≤ daysInYear y := by
  obtain ⟨hy, hm1, hm2, hd1, hd2⟩ := h
  unfold daysInMonth at hd2
  unfold daysBeforeMonth daysInYear
  interval_cases m <;> by_cases hl : isLeap y <;>
    simp [monthTable, hl] at hd2 ⊢ <;> omega

set_option maxHeartbeats 3200000 in
theorem month_day_inj {y m1 d1 m2 d2 : Nat}
    (h1 : ValidDate y m1 d1) (h2 : ValidDate y m2 d2)
    (he : daysBeforeMonth y m1 + d1 = daysBeforeMonth y m2 + d2) :
    m1 = m2 ∧ d1 = d2 := by
  obtain ⟨_, hm1a, hm1b, hd1a, hd1b⟩ := h1
  obtain ⟨_, hm2a, hm2b, hd2a, hd2b⟩ := h2
  unfold daysInMonth at hd1b hd2b
  unfold daysBeforeMonth at he
  interval_cases m1 <;> interval_cases m2 <;> by_cases hl : isLeap y <;>
    simp [monthTable, hl] at hd1b hd2b he ⊢ <;> omega

theorem toordinal_lt_of_year_lt {y1 m1 d1 y2 m2 d2 : Nat}
    (h1 : ValidDate y1 m1 d1) (h2 : ValidDate y2 m2 d2) (hy : y1 < y2) :
    toordinal y1 m1 d1 < toordinal y2 m2 d2 := by
  have hb1 := month_day_le h1
  have hy1 : 1 ≤ y1 := h1.1
  have hd2 : 1 ≤ d2 := h2.2.2.2.1
  have hsucc := daysBeforeYear_succ y1 hy1
  have hmono := daysBeforeYear_mono (show 1 ≤ y1 + 1 by omega) (show y1 + 1 ≤ y2 by omega)
  unfold toordinal
  omega

theorem toordinal_inj {y1 m1 d1 y2 m2 d2 : Nat}
    (h1 : ValidDate y1 m1 d1) (h2 : ValidDate y2 m2 d2)
    (he : toordinal y1 m1 d1 = toordinal y2 m2 d2) :
    y1 = y2 ∧ m1 = m2 ∧ d1 = d2 := by
  rcases Nat.lt_trichotomy y1 y2 with hy | hy | hy
  · exact absurd he (Nat.ne_of_lt (toordinal_lt_of_year_lt h1 h2 hy))
  · subst hy
    unfold toordinal at he
    have hmd := month_day_inj h1 h2 (by omega)
    exact ⟨rfl, hmd⟩
  · exact absurd he.symm (Nat.ne_of_lt (toordinal_lt_of_year_lt h2 h1 hy))

/-! ### Inversion and determinism of `get_half_day_value` -/

theorem get_half_day_value_inv {s : String} {d : DateObj} {v : Nat} {h : String}
    (hs : get_half_day_value s = some (d, v, h)) :
    ∃ t : Tok, findTok s.data = some t ∧ ValidDate t.year t.month t.day ∧
      d = ⟨t.year, t.month, t.day⟩ ∧
      v = toordinal t.year t.month t.day * 2 + (if t.isAN then 1 else 0) ∧
      h = (if t.isAN then "AN" else "FN") := by
  unfold get_half_day_value at hs
  split at hs
  · exact Option.noConfusion hs
  · rename_i t hft
    split at hs
    · rename_i hv
      simp only [Option.some.injEq, Prod.mk.injEq] at hs
      obtain ⟨h1, h2, h3⟩ := hs
      exact ⟨t, hft, hv, h1.symm, h2.symm, h3.symm⟩
    · exact Option.noConfusion hs

theorem get_half_day_value_valid {s : String} {d : DateObj} {v : Nat} {h : String}
    (hs : get_half_day_value s = some (d, v, h)) :
    ValidDate d.year d.month d.day := by
  obtain ⟨t, _, hv, hd, _, _⟩ := get_half_day_value_inv hs
  rw [hd]
  exact hv

/-- The value component re-encodes the returned date and session marker. -/
theorem get_half_day_value_encode {s : String} {d : DateObj} {v : Nat} {h : String}
    (hs : get_half_day_value s = some (d, v, h)) :
    v = toordinal d.year d.month d.day * 2 + (if h = "AN" then 1 else 0) := by
  obtain ⟨t, _, _, hd, hval, hh⟩ := get_half_day_value_inv hs
  subst hd
  cases hA : t.isAN
  · rw [hA] at hval hh
    simp only [Bool.false_eq_true, if_false] at hval hh
    subst hh
    simpa using hval
  · rw [hA] at hval hh
    simp only [if_true] at hval hh
    subst hh
    simpa using hval

/-- Two successful parses with the same half-day value agree on the calendar
date and on the session marker. -/
theorem half_day_value_det {s1 s2 : String} {d1 d2 : DateObj} {v : Nat} {h1 h2 : String}
    (ha : get_half_day_value s1 = some (d1, v, h1))
    (hb : get_half_day_value s2 = some (d2, v, h2)) :
    d1 = d2 ∧ h1 = h2 := by
  obtain ⟨t1, _, hv1, hd1, hval1, hh1⟩ := get_half_day_value_inv ha
  obtain ⟨t2, _, hv2, hd2, hval2, hh2⟩ := get_half_day_value_inv hb
  cases hA1 : t1.isAN <;> cases hA2 : t2.isAN <;> rw [hA1] at hval1 hh1 <;>
    rw [hA2] at hval2 hh2 <;>
    simp only [Bool.false_eq_true, if_false, if_true] at hval1 hval2 hh1 hh2
  all_goals (
    first
      | (have ho : toordinal t1.year t1.month t1.day = toordinal t2.year t2.month t2.day := by
          omega
         obtain ⟨hy, hm, hd⟩ := toordinal_inj hv1 hv2 ho
         subst hd1; subst hd2; subst hh1; subst hh2
         exact ⟨by rw [hy, hm, hd], rfl⟩)
      | omega)

/-! ### `findTok` finds exactly the leftmost match -/

theorem findTok_iff (l : List Char) (t : Tok) :
    findTok l = some t ↔
      ∃ i, tokAt (l.drop i) = some t ∧ ∀ j, j < i → tokAt (l.drop j) = none := by
  induction l with
  | nil =>
    constructor
    · intro hn; exact Option.noConfusion hn
    · rintro ⟨i, hi, -⟩
      rw [List.drop_nil] at hi
      exact Option.noConfusion hi
  | cons c rest ih =>
    cases htok : tokAt (c :: rest) with
    | some t0 =>
      have hred : findTok (c :: rest) = some t0 := by
        unfold findTok; rw [htok]
      rw [hred]
      constructor
      · intro hs
        refine ⟨0, ?_, ?_⟩
        · rw [List.drop_zero, htok]; exact hs
        · intro j hj; omega
      · rintro ⟨i, hi, hmin⟩
        cases i with
        | zero =>
          rw [List.drop_zero, htok] at hi
          exact hi
        | succ n =>
          have h0 := hmin 0 (Nat.succ_pos n)
          rw [List.drop_zero] at h0
          rw [h0] at htok
          exact Option.noConfusion htok
    | none =>
      have hred : findTok (c :: rest) = findTok rest := by
        conv_lhs => unfold findTok
        rw [htok]
      rw [hred, ih]
      constructor
      · rintro ⟨i, hi, hmin⟩
        refine ⟨i + 1, by simpa using hi, ?_⟩
        intro j hj
        cases j with
        | zero => simpa using htok
        | succ n =>
          have := hmin n (by omega)
          simpa using this
      · rintro ⟨i, hi, hmin⟩
        cases i with
        | zero =>
          rw [List.drop_zero, htok] at hi
          exact Option.noConfusion hi
        | succ n =>
          refine ⟨n, by simpa using hi, ?_⟩
          intro j hj
          have := hmin (j + 1) (by omega)
          simpa using this

/-! ### The group-processing loop body, in closed form -/

theorem processGroup_eq (row : Row) (leave_type authority_raw : String) (b : Nat)
    {from_s to_s : String} {d1 d2 : DateObj} {fv tv : Nat} {h1 h2 : String}
    (hf : get_half_day_value from_s = some (d1, fv, h1))
    (ht : get_half_day_value to_s = some (d2, tv, h2)) :
    processGroup row leave_type b from_s to_s authority_raw =
      if (leave_type ∈ (["LAP", "LHAP", "COL"] : List String)) ∧
          fv ≤ b ∧ tv > b then
        [ mkRecord row leave_type from_s "30/09/2025AN"
            (some (((boundaryVal : ℚ) - (fv : ℚ) + 1) / 2)) (sanctionOf authority_raw),
          mkRecord row leave_type "01/10/2025FN" to_s
            (some (((tv : ℚ) - ((boundaryVal + 1 : ℕ) : ℚ) + 1) / 2)) (sanctionOf authority_raw) ]
      else
        [ mkRecord row leave_type from_s to_s
            (some (((tv : ℚ) - (fv : ℚ) + 1) / 2)) (sanctionOf authority_raw) ] := by
  unfold processGroup calculate_leave_days
  rw [hf, ht, boundary_val_spec, oct_1_fn_spec]

/-- A group whose tokens decode is never dropped: the loop body emits at
least one record. -/
theorem processGroup_ne_nil (row : Row) (leave_type authority_raw : String) (b : Nat)
    {from_s to_s : String} {d1 d2 : DateObj} {fv tv : Nat} {h1 h2 : String}
    (hf : get_half_day_value from_s = some (d1, fv, h1))
    (ht : get_half_day_value to_s = some (d2, tv, h2)) :
    processGroup row leave_type b from_s to_s authority_raw ≠ [] := by
  rw [processGroup_eq row leave_type authority_raw b hf ht]
  split <;> simp

/-- The duration a decoded group's record carries. -/
theorem calculate_eq {f t : String} {d1 d2 : DateObj} {fv tv : Nat} {h1 h2 : String}
    (hf : get_half_day_value f = some (d1, fv, h1))
    (ht : get_half_day_value t = some (d2, tv, h2)) :
    calculate_leave_days f t = some (((tv : ℚ) - (fv : ℚ) + 1) / 2) := by
  unfold calculate_leave_days
  rw [hf, ht]

/-- A group with an undecodable token is dropped without a trace. -/
theorem processGroup_skip (row : Row) (leave_type : String) (b : Nat)
    (from_s to_s authority_raw : String)
    (h : get_half_day_value from_s = none ∨ get_half_day_value to_s = none) :
    processGroup row leave_type b from_s to_s authority_raw = [] := by
  rcases h with h | h
  · unfold processGroup
    rw [h]
  · unfold processGroup
    rw [h]
    cases hf : get_half_day_value from_s with
    | none => rfl
    | some p => obtain ⟨a, q, w⟩ := p; rfl

/-! ### The clause body never contains a closing parenthesis -/

theorem bodyUpToParen_chars :
    ∀ {l b rest : List Char}, bodyUpToParen l = some (b, rest) → ')' ∉ b := by
  intro l
  induction l with
  | nil => intro b rest h; exact Option.noConfusion h
  | cons c r ih =>
    intro b rest h
    unfold bodyUpToParen at h
    split at h
    · simp only [Option.some.injEq, Prod.mk.injEq] at h
      rw [← h.1]
      exact List.not_mem_nil _
    · rename_i hc
      split at h
      · exact Option.noConfusion h
      · split at h
        · rename_i b0 rest0 heq
          simp only [Option.some.injEq, Prod.mk.injEq] at h
          rw [← h.1]
          intro hmem
          rcases List.mem_cons.mp hmem with hcc | hb0
          · exact hc hcc.symm
          · exact ih heq hb0
        · exact Option.noConfusion h

theorem authUpToParen_has_rparen :
    ∀ {l b rest : List Char}, authUpToParen l = some (b, rest) → ')' ∈ l := by
  intro l
  induction l with
  | nil => intro b rest h; exact Option.noConfusion h
  | cons c r ih =>
    intro b rest h
    unfold authUpToParen at h
    split at h
    · rename_i hc
      rw [hc]
      exact List.mem_cons_self _ _
    · split at h
      · rename_i b0 rest0 heq
        exact List.mem_cons_of_mem _ (ih heq)
      · exact Option.noConfusion h

theorem authUpToParen_chars :
    ∀ {l b rest : List Char}, authUpToParen l = some (b, rest) → ')' ∉ b := by
  intro l
  induction l with
  | nil => intro b rest h; exact Option.noConfusion h
  | cons c r ih =>
    intro b rest h
    unfold authUpToParen at h
    split at h
    · simp only [Option.some.injEq, Prod.mk.injEq] at h
      rw [← h.1]
      exact List.not_mem_nil _
    · rename_i hc
      split at h
      · rename_i b0 rest0 heq
        simp only [Option.some.injEq, Prod.mk.injEq] at h
        rw [← h.1]
        intro hmem
        rcases List.mem_cons.mp hmem with hcc | hb0
        · exact hc hcc.symm
        · exact ih heq hb0
      · exact Option.noConfusion h

theorem matchClauseAt_body {l : List Char} {cl : String × String × String} {rest : List Char}
    (h : matchClauseAt l = some (cl, rest)) :
    ')' ∉ cl.2.2.data := by
  simp only [matchClauseAt] at h
  repeat' split at h
  all_goals try exact Option.noConfusion h
  rename_i body0 rest0 heq
  simp only [Option.some.injEq, Prod.mk.injEq] at h
  rw [← h.1]
  exact bodyUpToParen_chars heq

theorem findClausesAux_body :
    ∀ (fuel : Nat) (l : List Char) {cl : String × String × String},
      cl ∈ findClausesAux fuel l → ')' ∉ cl.2.2.data := by
  intro fuel
  induction fuel with
  | zero =>
    intro l cl h
    simp [findClausesAux] at h
  | succ n ih =>
    intro l cl h
    cases l with
    | nil => simp [findClausesAux] at h
    | cons c rest =>
      unfold findClausesAux at h
      split at h
      · rename_i cl0 after heq
        rcases List.mem_cons.mp h with h1 | h2
        · rw [h1]
          exact matchClauseAt_body heq
        · exact ih after h2
      · exact ih rest h

theorem matchGroupAt_inv {l : List Char} {g : String × String × String}
    {rest : List Char} (h : matchGroupAt l = some (g, rest)) :
    ∃ r2 r5 auth arest,
      l.drop 12 = '-' :: r2 ∧
      (r2.drop 12).dropWhile isWs = '(' :: r5 ∧
      authUpToParen r5 = some (auth, arest) ∧
      g.2.2 = (⟨auth⟩ : String) := by
  unfold matchGroupAt at h
  split at h
  · exact Option.noConfusion h
  · split at h
    · rename_i s1 r2 h12
      split at h
      · exact Option.noConfusion h
      · split at h
        · rename_i s2 r5 h45
          split at h
          · rename_i s3 auth0 arest0 hauth
            refine ⟨r2, r5, auth0, arest0, h12, h45, hauth, ?_⟩
            simp only [Option.some.injEq, Prod.mk.injEq] at h
            rw [← h.1]
          · exact Option.noConfusion h
        · exact Option.noConfusion h
    · exact Option.noConfusion h

theorem matchGroupAt_has_rparen {l : List Char} {g : String × String × String}
    {rest : List Char} (h : matchGroupAt l = some (g, rest)) :
    ')' ∈ l := by
  obtain ⟨r2, r5, auth, arest, h12, h45, hauth, -⟩ := matchGroupAt_inv h
  have h5 := authUpToParen_has_rparen hauth
  have h4 : (')' : Char) ∈ (r2.drop 12).dropWhile isWs := by
    rw [h45]
    exact List.mem_cons_of_mem _ h5
  have h3 := List.drop_subset _ _ ((List.dropWhile_sublist _).subset h4)
  have h2 : (')' : Char) ∈ l.drop 12 := by
    rw [h12]
    exact List.mem_cons_of_mem _ h3
  exact List.drop_subset _ _ h2

theorem matchGroupAt_auth {l : List Char} {g : String × String × String}
    {rest : List Char} (h : matchGroupAt l = some (g, rest)) :
    ')' ∉ g.2.2.data := by
  obtain ⟨r2, r5, auth, arest, -, -, hauth, hg⟩ := matchGroupAt_inv h
  rw [hg]
  exact authUpToParen_chars hauth

theorem findGroupsAux_eq_nil :
    ∀ (fuel : Nat) {l : List Char}, ')' ∉ l → findGroupsAux fuel l = [] := by
  intro fuel
  induction fuel with
  | zero => intro l h; rfl
  | succ n ih =>
    intro l h
    cases l with
    | nil => rfl
    | cons c rest =>
      unfold findGroupsAux
      split
      · rename_i g after heq
        exact absurd (matchGroupAt_has_rparen heq) h
      · exact ih fun hr => h (List.mem_cons_of_mem _ hr)

theorem findGroupsAux_auth :
    ∀ (fuel : Nat) (l : List Char) {g : String × String × String},
      g ∈ findGroupsAux fuel l → ')' ∉ g.2.2.data := by
  intro fuel
  induction fuel with
  | zero =>
    intro l g h
    simp [findGroupsAux] at h
  | succ n ih =>
    intro l g h
    cases l with
    | nil => simp [findGroupsAux] at h
    | cons c rest =>
      unfold findGroupsAux at h
      split at h
      · rename_i g0 after heq
        rcases List.mem_cons.mp h with h1 | h2
        · rw [h1]
          exact matchGroupAt_auth heq
        · exact ih after h2
      · exact ih rest h

theorem flatMap_eq_nil {α β : Type} {l : List α} {f : α → List β}
    (h : ∀ x ∈ l, f x = []) : l.flatMap f = [] := by
  induction l with
  | nil => rfl
  | cons a l ih =>
    have ha := h a (List.mem_cons_self _ _)
    have hl := ih fun x hx => h x (List.mem_cons_of_mem _ hx)
    simp [List.flatMap_cons, ha, hl]

/-- The central dead-code fact of `src/Leave.py`: a clause body captured by
`([A-Z]+)\s+([\d.]+)\s+days\s+\((.*?)\)` stops before the first `)`, while
the group pattern demands a `(...)` inside that body, so no group is ever
extracted and `parse_and_split_leave` returns no records for any row. -/
theorem parse_and_split_leave_eq_nil (row : Row) : parse_and_split_leave row = [] := by
  unfold parse_and_split_leave
  rw [boundary_val_spec]
  refine flatMap_eq_nil fun cl hcl => ?_
  unfold findClauses at hcl
  have hnp := findClausesAux_body _ _ hcl
  have hg : findGroups cl.2.2 = [] := findGroupsAux_eq_nil _ hnp
  rw [hg]
  rfl

/-! ### Claims -/

/-- A sample input row used to instantiate witnesses. -/
def row0 : Row := ⟨"A Kumar", "HR001", "IP001", "Clerk", ""⟩

/-- A record with its sanction-authority field blanked, to compare records up
to the authority text. -/
def eraseSanction (rec : Record) : Record :=
  { rec with sanction_authority := "" }

/-- Claim C1: for a decoded date-authority group, the loop body emits exactly
the two boundary-split segments — `from → 30/09/2025AN` with duration
`(boundary - from + 1) / 2` and `01/10/2025FN → to` with duration
`(to - (boundary + 1) + 1) / 2`, both inheriting the leave type, row identity
and rendered authority — precisely when the leave type is in
`{LAP, LHAP, COL}` and `from ≤ boundary < to`; otherwise it emits exactly the
single unsplit segment `from → to` with duration `(to - from + 1) / 2`,
regardless of its span. -/
theorem c1_split_decision (row : Row) (leave_type authority_raw : String)
    {from_s to_s : String} {d1 d2 : DateObj} {fv tv : Nat} {h1 h2 : String}
    (hf : get_half_day_value from_s = some (d1, fv, h1))
    (ht : get_half_day_value to_s = some (d2, tv, h2)) :
    processGroup row leave_type boundaryVal from_s to_s authority_raw =
      (if (leave_type ∈ (["LAP", "LHAP", "COL"] : List String)) ∧
          fv ≤ boundaryVal ∧ tv > boundaryVal then
        [ mkRecord row leave_type from_s "30/09/2025AN"
            (some (((boundaryVal : ℚ) - (fv : ℚ) + 1) / 2)) (sanctionOf authority_raw),
          mkRecord row leave_type "01/10/2025FN" to_s
            (some (((tv : ℚ) - ((boundaryVal + 1 : ℕ) : ℚ) + 1) / 2)) (sanctionOf authority_raw) ]
      else
        [ mkRecord row leave_type from_s to_s
            (some (((tv : ℚ) - (fv : ℚ) + 1) / 2)) (sanctionOf authority_raw) ]) ∧
    ((processGroup row leave_type boundaryVal from_s to_s authority_raw).length = 2 ↔
      (leave_type ∈ (["LAP", "LHAP", "COL"] : List String)) ∧
        fv ≤ boundaryVal ∧ tv > boundaryVal) := by
  have he := processGroup_eq row leave_type authority_raw boundaryVal hf ht
  refine ⟨he, ?_⟩
  rw [he]
  split
  · rename_i hc
    simpa using hc
  · rename_i hc
    simpa using hc

theorem c1_split_decision_witness :
    (processGroup row0 "LAP" boundaryVal "28/09/2025FN" "03/10/2025AN" "PO123" =
      (if (("LAP" : String) ∈ (["LAP", "LHAP", "COL"] : List String)) ∧
          1479044 ≤ boundaryVal ∧ 1479055 > boundaryVal then
        [ mkRecord row0 "LAP" "28/09/2025FN" "30/09/2025AN"
            (some (((boundaryVal : ℚ) - ((1479044 : ℕ) : ℚ) + 1) / 2)) (sanctionOf "PO123"),
          mkRecord row0 "LAP" "01/10/2025FN" "03/10/2025AN"
            (some ((((1479055 : ℕ) : ℚ) - ((boundaryVal + 1 : ℕ) : ℚ) + 1) / 2)) (sanctionOf "PO123") ]
      else
        [ mkRecord row0 "LAP" "28/09/2025FN" "03/10/2025AN"
            (some ((((1479055 : ℕ) : ℚ) - ((1479044 : ℕ) : ℚ) + 1) / 2)) (sanctionOf "PO123") ])) ∧
    ((processGroup row0 "LAP" boundaryVal "28/09/2025FN" "03/10/2025AN" "PO123").length = 2 ↔
      (("LAP" : String) ∈ (["LAP", "LHAP", "COL"] : List String)) ∧
        1479044 ≤ boundaryVal ∧ 1479055 > boundaryVal) :=
  @c1_split_decision row0 "LAP" "PO123" "28/09/2025FN" "03/10/2025AN"
    ⟨2025, 9, 28⟩ ⟨2025, 10, 3⟩ 1479044 1479055 "FN" "AN" (by decide) (by decide)

/-- Claim C2: for a splittable-type group satisfying the split condition, the
two emitted segments are contiguous and non-overlapping — the first ends at
the boundary half-day `30/09/2025AN` and the second starts at its successor
half-day `01/10/2025FN`, whose value is `boundary + 1` — and their durations
add up to the unsplit duration `(to - from + 1) / 2` of the original range. -/
theorem c2_split_completeness (row : Row) (leave_type authority_raw : String)
    {from_s to_s : String} {d1 d2 : DateObj} {fv tv : Nat} {h1 h2 : String}
    (hf : get_half_day_value from_s = some (d1, fv, h1))
    (ht : get_half_day_value to_s = some (d2, tv, h2))
    (hsplit : (leave_type ∈ (["LAP", "LHAP", "COL"] : List String)) ∧
      fv ≤ boundaryVal ∧ tv > boundaryVal) :
    ∃ a b : Record,
      processGroup row leave_type boundaryVal from_s to_s authority_raw = [a, b] ∧
      a.from_date = from_s ∧ a.to_date = "30/09/2025AN" ∧
      b.from_date = "01/10/2025FN" ∧ b.to_date = to_s ∧
      get_half_day_value a.to_date = some (⟨2025, 9, 30⟩, boundaryVal, "AN") ∧
      get_half_day_value b.from_date = some (⟨2025, 10, 1⟩, boundaryVal + 1, "FN") ∧
      fv ≤ boundaryVal ∧ boundaryVal + 1 ≤ tv ∧
      ∃ qa qb : ℚ, a.leave_days = some qa ∧ b.leave_days = some qb ∧
        qa + qb = ((tv : ℚ) - (fv : ℚ) + 1) / 2 := by
  rw [processGroup_eq row leave_type authority_raw boundaryVal hf ht, if_pos hsplit]
  refine ⟨_, _, rfl, rfl, rfl, rfl, rfl, boundary_val_spec, oct_1_fn_spec,
    hsplit.2.1, hsplit.2.2, _, _, rfl, rfl, ?_⟩
  push_cast
  ring

theorem c2_split_completeness_witness :
    ∃ a b : Record,
      processGroup row0 "LAP" boundaryVal "28/09/2025FN" "03/10/2025AN" "PO123" = [a, b] ∧
      a.from_date = "28/09/2025FN" ∧ a.to_date = "30/09/2025AN" ∧
      b.from_date = "01/10/2025FN" ∧ b.to_date = "03/10/2025AN" ∧
      get_half_day_value a.to_date = some (⟨2025, 9, 30⟩, boundaryVal, "AN") ∧
      get_half_day_value b.from_date = some (⟨2025, 10, 1⟩, boundaryVal + 1, "FN") ∧
      1479044 ≤ boundaryVal ∧ boundaryVal + 1 ≤ 1479055 ∧
      ∃ qa qb : ℚ, a.leave_days = some qa ∧ b.leave_days = some qb ∧
        qa + qb = (((1479055 : ℕ) : ℚ) - ((1479044 : ℕ) : ℚ) + 1) / 2 :=
  @c2_split_completeness row0 "LAP" "PO123" "28/09/2025FN" "03/10/2025AN"
    ⟨2025, 9, 28⟩ ⟨2025, 10, 3⟩ 1479044 1479055 "FN" "AN" (by decide) (by decide) (by decide)

/-- Claim C3: for decoded half-day values with `from ≤ to`, the computed
duration is the inclusive half-day count `(to - from + 1) / 2`: a
single-session range yields 0.5 days, a same-day FN-to-AN range yields 1.0
day, and the range `05/09/2025AN-05/09/2025AN` yields one segment with 0.5
leave days. -/
theorem c3_duration_law :
    (∀ (f t : String) (d1 d2 : DateObj) (fv tv : Nat) (h1 h2 : String),
        get_half_day_value f = some (d1, fv, h1) →
        get_half_day_value t = some (d2, tv, h2) → fv ≤ tv →
        calculate_leave_days f t = some (((tv : ℚ) - (fv : ℚ) + 1) / 2)) ∧
    (∀ (f t : String) (d1 d2 : DateObj) (v : Nat) (h1 h2 : String),
        get_half_day_value f = some (d1, v, h1) →
        get_half_day_value t = some (d2, v, h2) →
        calculate_leave_days f t = some (1 / 2)) ∧
    (∀ (f t : String) (d : DateObj) (fv tv : Nat),
        get_half_day_value f = some (d, fv, "FN") →
        get_half_day_value t = some (d, tv, "AN") →
        calculate_leave_days f t = some 1) ∧
    (∀ (row : Row) (leave_type authority_raw : String),
        processGroup row leave_type boundaryVal "05/09/2025AN" "05/09/2025AN" authority_raw =
          [mkRecord row leave_type "05/09/2025AN" "05/09/2025AN" (some (1 / 2))
            (sanctionOf authority_raw)]) := by
  refine ⟨?_, ?_, ?_, ?_⟩
  · intro f t d1 d2 fv tv h1 h2 hf ht hle
    exact calculate_eq hf ht
  · intro f t d1 d2 v h1 h2 hf ht
    rw [calculate_eq hf ht]
    norm_num
  · intro f t d fv tv hf ht
    have e1 := get_half_day_value_encode hf
    have e2 := get_half_day_value_encode ht
    rw [if_neg (by decide)] at e1
    rw [if_pos rfl] at e2
    rw [calculate_eq hf ht, e1, e2]
    congr 1
    push_cast
    ring
  · intro row leave_type authority_raw
    rw [processGroup_eq row leave_type authority_raw boundaryVal
      (by decide : get_half_day_value "05/09/2025AN" = some (⟨2025, 9, 5⟩, 1478999, "AN"))
      (by decide : get_half_day_value "05/09/2025AN" = some (⟨2025, 9, 5⟩, 1478999, "AN")),
      if_neg (fun hc => absurd hc.2.2 (by decide))]
    have hq : ((((1478999 : ℕ) : ℚ)) - (((1478999 : ℕ) : ℚ)) + 1) / 2 = 1 / 2 := by norm_num
    rw [hq]

theorem c3_duration_law_witness :
    calculate_leave_days "05/09/2025FN" "06/09/2025AN" = some 2 ∧
    calculate_leave_days "05/09/2025AN" "05/09/2025AN" = some (1 / 2) ∧
    calculate_leave_days "05/09/2025FN" "05/09/2025AN" = some 1 ∧
    processGroup row0 "CL" boundaryVal "05/09/2025AN" "05/09/2025AN" "PO9" =
      [mkRecord row0 "CL" "05/09/2025AN" "05/09/2025AN" (some (1 / 2)) (sanctionOf "PO9")] :=
  ⟨(c3_duration_law.1 "05/09/2025FN" "06/09/2025AN" ⟨2025, 9, 5⟩ ⟨2025, 9, 6⟩
      1478998 1479001 "FN" "AN" (by decide) (by decide) (by decide)).trans (by norm_num),
   c3_duration_law.2.1 "05/09/2025AN" "05/09/2025AN" ⟨2025, 9, 5⟩ ⟨2025, 9, 5⟩
      1478999 "AN" "AN" (by decide) (by decide),
   c3_duration_law.2.2.1 "05/09/2025FN" "05/09/2025AN" ⟨2025, 9, 5⟩
      1478998 1478999 (by decide) (by decide),
   c3_duration_law.2.2.2 row0 "CL" "PO9"⟩

/-- Claim C4 fails on the code: `calculate_leave_days` does not fail when
`to < from` — it returns the value `(to - from + 1) / 2` anyway — and the
loop body emits the resulting zero-duration (or negative-duration) record
instead of dropping it.  Here `01/10/2025AN-01/10/2025FN` (to one half-day
before from) produces an emitted segment with 0 leave days, which is not a
positive multiple of 0.5. -/
theorem c4_counterexample :
    calculate_leave_days "01/10/2025AN" "01/10/2025FN" = some 0 ∧
    processGroup row0 "CL" boundaryVal "01/10/2025AN" "01/10/2025FN" "PO1" =
      [mkRecord row0 "CL" "01/10/2025AN" "01/10/2025FN" (some 0) "(PO1) "] := by
  constructor
  · rw [calculate_eq (f := "01/10/2025AN") (t := "01/10/2025FN")
      (by decide : get_half_day_value "01/10/2025AN" = some (⟨2025, 10, 1⟩, 1479051, "AN"))
      (by decide : get_half_day_value "01/10/2025FN" = some (⟨2025, 10, 1⟩, 1479050, "FN"))]
    norm_num
  · rw [processGroup_eq row0 "CL" "PO1" boundaryVal
      (by decide : get_half_day_value "01/10/2025AN" = some (⟨2025, 10, 1⟩, 1479051, "AN"))
      (by decide : get_half_day_value "01/10/2025FN" = some (⟨2025, 10, 1⟩, 1479050, "FN")),
      if_neg (fun hc => absurd hc.2.1 (by decide))]
    have hq : ((((1479050 : ℕ) : ℚ)) - (((1479051 : ℕ) : ℚ)) + 1) / 2 = 0 := by norm_num
    rw [hq, show sanctionOf "PO1" = "(PO1) " from by decide]

/-- Claim C4, amended: on decoded tokens the duration never fails — it is
`(to - from + 1) / 2` even when `to < from` (`NaN` arises only from an
undecodable token); a group with an undecodable token is dropped entirely;
and every emitted record's duration is an integer multiple of 0.5, though not
necessarily positive. -/
theorem c4_amended :
    (∀ (f t : String) (d1 d2 : DateObj) (fv tv : Nat) (h1 h2 : String),
        get_half_day_value f = some (d1, fv, h1) →
        get_half_day_value t = some (d2, tv, h2) →
        calculate_leave_days f t = some (((tv : ℚ) - (fv : ℚ) + 1) / 2)) ∧
    (∀ f t : String, get_half_day_value f = none ∨ get_half_day_value t = none →
        calculate_leave_days f t = none) ∧
    (∀ (row : Row) (leave_type : String) (b : Nat) (f t a : String),
        get_half_day_value f = none ∨ get_half_day_value t = none →
        processGroup row leave_type b f t a = []) ∧
    (∀ (row : Row) (leave_type : String) (b : Nat) (f t a : String) (rec : Record),
        rec ∈ processGroup row leave_type b f t a →
        ∃ n : ℤ, rec.leave_days = some ((n : ℚ) / 2)) := by
  refine ⟨?_, ?_, ?_, ?_⟩
  · intro f t d1 d2 fv tv h1 h2 hf ht
    exact calculate_eq hf ht
  · intro f t h
    rcases h with h | h
    · unfold calculate_leave_days
      rw [h]
    · unfold calculate_leave_days
      rw [h]
      cases hf : get_half_day_value f with
      | none => rfl
      | some p => obtain ⟨a, q, w⟩ := p; rfl
  · intro row leave_type b f t a h
    exact processGroup_skip row leave_type b f t a h
  · intro row leave_type b f t a rec hmem
    cases hf : get_half_day_value f with
    | none =>
      rw [processGroup_skip row leave_type b f t a (Or.inl hf)] at hmem
      exact absurd hmem (List.not_mem_nil _)
    | some p =>
      obtain ⟨df, fv, hfh⟩ := p
      cases ht : get_half_day_value t with
      | none =>
        rw [processGroup_skip row leave_type b f t a (Or.inr ht)] at hmem
        exact absurd hmem (List.not_mem_nil _)
      | some q =>
        obtain ⟨dt, tv, hth⟩ := q
        rw [processGroup_eq row leave_type a b hf ht] at hmem
        split at hmem
        · simp only [List.mem_cons, List.not_mem_nil, or_false] at hmem
          rcases hmem with h1 | h1
          · refine ⟨(boundaryVal : ℤ) - (fv : ℤ) + 1, ?_⟩
            rw [h1]
            unfold mkRecord
            push_cast
            ring_nf
          · refine ⟨(tv : ℤ) - ((boundaryVal : ℤ) + 1) + 1, ?_⟩
            rw [h1]
            unfold mkRecord
            push_cast
            ring_nf
        · simp only [List.mem_cons, List.not_mem_nil, or_false] at hmem
          refine ⟨(tv : ℤ) - (fv : ℤ) + 1, ?_⟩
          rw [hmem]
          unfold mkRecord
          push_cast
          ring_nf

theorem c4_amended_witness :
    calculate_leave_days "01/10/2025AN" "01/10/2025FN" =
      some (((((1479050 : ℕ)) : ℚ) - (((1479051 : ℕ)) : ℚ) + 1) / 2) ∧
    calculate_leave_days "31/02/2025FN" "05/09/2025AN" = none ∧
    processGroup row0 "CL" boundaryVal "31/02/2025FN" "05/09/2025AN" "PO1" = [] ∧
    ∃ n : ℤ,
      (mkRecord row0 "CL" "01/10/2025AN" "01/10/2025FN"
        (some (((((1479050 : ℕ)) : ℚ) - (((1479051 : ℕ)) : ℚ) + 1) / 2))
        (sanctionOf "PO1")).leave_days = some ((n : ℚ) / 2) :=
  ⟨c4_amended.1 "01/10/2025AN" "01/10/2025FN" ⟨2025, 10, 1⟩ ⟨2025, 10, 1⟩
      1479051 1479050 "AN" "FN" (by decide) (by decide),
   c4_amended.2.1 "31/02/2025FN" "05/09/2025AN" (Or.inl (by decide)),
   c4_amended.2.2.1 row0 "CL" boundaryVal "31/02/2025FN" "05/09/2025AN" "PO1"
      (Or.inl (by decide)),
   c4_amended.2.2.2 row0 "CL" boundaryVal "01/10/2025AN" "01/10/2025FN" "PO1" _
      (by
        rw [processGroup_eq row0 "CL" "PO1" boundaryVal
          (by decide : get_half_day_value "01/10/2025AN" = some (⟨2025, 10, 1⟩, 1479051, "AN"))
          (by decide : get_half_day_value "01/10/2025FN" = some (⟨2025, 10, 1⟩, 1479050, "FN")),
          if_neg (fun hc => absurd hc.2.1 (by decide))]
        exact List.mem_singleton.mpr rfl)⟩

/-- Claim C5 fails on the code, twice over.  First, at row level the clause
capture `(.*?)` stops at the first `)`, so the group pattern — which demands
a parenthesised authority — never matches and the row yields zero segments,
not two.  Second, even the loop body applied directly to the decoded range
`28/09/2025FN-03/10/2025AN` gives each half 3.0 leave days (six half-days on
each side of the boundary), not 1.5. -/
theorem c5_counterexample :
    parse_and_split_leave ⟨"A Kumar", "HR001", "IP001", "Clerk",
        "LAP 6.0 days (28/09/2025FN-03/10/2025AN (PO123) Sh A Director)"⟩ = [] ∧
    processGroup row0 "LAP" boundaryVal "28/09/2025FN" "03/10/2025AN" "PO123" =
      [ mkRecord row0 "LAP" "28/09/2025FN" "30/09/2025AN" (some 3) "(PO123) ",
        mkRecord row0 "LAP" "01/10/2025FN" "03/10/2025AN" (some 3) "(PO123) " ] := by
  constructor
  · exact parse_and_split_leave_eq_nil _
  · rw [processGroup_eq row0 "LAP" "PO123" boundaryVal
      (by decide : get_half_day_value "28/09/2025FN" = some (⟨2025, 9, 28⟩, 1479044, "FN"))
      (by decide : get_half_day_value "03/10/2025AN" = some (⟨2025, 10, 3⟩, 1479055, "AN")),
      if_pos (by decide)]
    have hq1 : (((boundaryVal : ℕ) : ℚ) - (((1479044 : ℕ)) : ℚ) + 1) / 2 = 3 := by
      norm_num [boundaryVal]
    have hq2 : ((((1479055 : ℕ)) : ℚ) - (((boundaryVal + 1 : ℕ)) : ℚ) + 1) / 2 = 3 := by
      norm_num [boundaryVal]
    rw [hq1, hq2, show sanctionOf "PO123" = "(PO123) " from by decide]

/-- Claim C5, amended: the loop body applied to the decoded group (type
`LAP`, range `28/09/2025FN-03/10/2025AN`) emits exactly the two boundary
segments `(28/09/2025FN, 30/09/2025AN)` and `(01/10/2025FN, 03/10/2025AN)`,
each with 3.0 leave days; at row level, however, `parse_and_split_leave`
extracts no group from any leave text — the clause body cannot contain the
`)` that the group pattern requires — and therefore returns zero records for
every row. -/
theorem c5_amended :
    (∀ (row : Row) (authority_raw : String),
        processGroup row "LAP" boundaryVal "28/09/2025FN" "03/10/2025AN" authority_raw =
          [ mkRecord row "LAP" "28/09/2025FN" "30/09/2025AN" (some 3) (sanctionOf authority_raw),
            mkRecord row "LAP" "01/10/2025FN" "03/10/2025AN" (some 3) (sanctionOf authority_raw) ]) ∧
    (∀ row : Row, parse_and_split_leave row = []) := by
  constructor
  · intro row authority_raw
    rw [processGroup_eq row "LAP" authority_raw boundaryVal
      (by decide : get_half_day_value "28/09/2025FN" = some (⟨2025, 9, 28⟩, 1479044, "FN"))
      (by decide : get_half_day_value "03/10/2025AN" = some (⟨2025, 10, 3⟩, 1479055, "AN")),
      if_pos (by decide)]
    have hq1 : (((boundaryVal : ℕ) : ℚ) - (((1479044 : ℕ)) : ℚ) + 1) / 2 = 3 := by
      norm_num [boundaryVal]
    have hq2 : ((((1479055 : ℕ)) : ℚ) - (((boundaryVal + 1 : ℕ)) : ℚ) + 1) / 2 = 3 := by
      norm_num [boundaryVal]
    rw [hq1, hq2]
  · exact parse_and_split_leave_eq_nil

theorem splitRP_no_rparen {l : List Char} (h : (')' : Char) ∉ l) : splitRP l = [l] := by
  induction l with
  | nil => rfl
  | cons c r ih =>
    have hc : ¬(c = ')') := by
      intro hc
      exact h (by rw [hc]; exact List.mem_cons_self _ _)
    unfold splitRP
    rw [if_neg hc, ih fun hr => h (List.mem_cons_of_mem _ hr)]

/-- Claim C6 fails on the code: `get_half_day_value` uses `re.search`, not a
full match, so it accepts any string that merely contains a date token — here
`"x17/09/2025FN"`, which is not itself of the form `DD/MM/YYYY(FN|AN)` (it is
13 characters long and does not match the token pattern at position 0). -/
theorem c6_counterexample :
    (get_half_day_value "x17/09/2025FN").isSome = true ∧
    "x17/09/2025FN".data.length ≠ 12 ∧
    tokAt "x17/09/2025FN".data = none := by
  decide

/-- Claim C6, amended: `get_half_day_value` accepts exactly the strings that
contain a substring of the form `DD/MM/YYYY` immediately followed by `FN` or
`AN` whose leftmost occurrence carries a valid calendar date (month lengths
and leap years respected); everything else — including a string whose
leftmost token has an invalid date — fails with `ValueError`. -/
theorem c6_amended (s : String) :
    (get_half_day_value s).isSome = true ↔
      ∃ i t, tokAt (s.data.drop i) = some t ∧
        (∀ j, j < i → tokAt (s.data.drop j) = none) ∧
        ValidDate t.year t.month t.day := by
  constructor
  · intro hsome
    obtain ⟨⟨d, v, h⟩, hval⟩ := Option.isSome_iff_exists.mp hsome
    obtain ⟨t, hft, hv, -, -, -⟩ := get_half_day_value_inv hval
    obtain ⟨i, hi, hmin⟩ := (findTok_iff s.data t).mp hft
    exact ⟨i, t, hi, hmin, hv⟩
  · rintro ⟨i, t, hi, hmin, hv⟩
    have hft : findTok s.data = some t := (findTok_iff s.data t).mpr ⟨i, hi, hmin⟩
    unfold get_half_day_value
    rw [hft]
    show (if ValidDate t.year t.month t.day then
        some ((⟨t.year, t.month, t.day⟩ : DateObj),
          toordinal t.year t.month t.day * 2 + (if t.isAN then 1 else 0),
          if t.isAN then "AN" else "FN") else none).isSome = true
    rw [if_pos hv]
    rfl

/-- Claim C7: row processing is best-effort and row-local.  A text holding
one well-formed clause plus the malformed clause whose group text is
`"12/09/2025FN-13/09/2025AN (ABC Director"` (mismatched parentheses) parses
to exactly what the well-formed clause alone parses to; that malformed group
text yields no group at all; and a group whose date token `31/02/2025FN` is
an invalid calendar date is skipped with no effect on the caller.  All
failures are encoded as values (`none`/`[]`), never as exceptions. -/
theorem c7_resilience (nm hid ip dg : String) :
    parse_and_split_leave ⟨nm, hid, ip, dg,
        "CL 1.0 days (05/09/2025AN-05/09/2025AN (PO7) X) LAP 2.0 days (12/09/2025FN-13/09/2025AN (ABC Director"⟩ =
      parse_and_split_leave ⟨nm, hid, ip, dg, "CL 1.0 days (05/09/2025AN-05/09/2025AN (PO7) X)"⟩ ∧
    findGroups "12/09/2025FN-13/09/2025AN (ABC Director" = [] ∧
    processGroup ⟨nm, hid, ip, dg, ""⟩ "CL" boundaryVal "31/02/2025FN" "05/09/2025AN" "PO2" = [] := by
  refine ⟨?_, by decide, ?_⟩
  · rw [parse_and_split_leave_eq_nil, parse_and_split_leave_eq_nil]
  · exact processGroup_skip _ "CL" boundaryVal _ _ "PO2" (Or.inl (by decide))

/-- Claim C8: the half-day encoding round-trips.  A successful parse returns
a value equal to `toordinal(date) * 2 + (0 for FN, 1 for AN)` over the
returned date and session — re-encoding reproduces the value — and the value
uniquely determines the calendar date and the session marker: any two
successful parses with the same value agree on both. -/
theorem c8_round_trip (s1 s2 : String) (d1 d2 : DateObj) (v : Nat) (h1 h2 : String)
    (ha : get_half_day_value s1 = some (d1, v, h1))
    (hb : get_half_day_value s2 = some (d2, v, h2)) :
    v = toordinal d1.year d1.month d1.day * 2 + (if h1 = "AN" then 1 else 0) ∧
    d1 = d2 ∧ h1 = h2 :=
  ⟨get_half_day_value_encode ha, (half_day_value_det ha hb).1, (half_day_value_det ha hb).2⟩

theorem c8_round_trip_witness :
    1479022 = toordinal 2025 9 17 * 2 + (if ("FN" : String) = "AN" then 1 else 0) ∧
    (⟨2025, 9, 17⟩ : DateObj) = (⟨2025, 9, 17⟩ : DateObj) ∧ ("FN" : String) = "FN" :=
  c8_round_trip "17/09/2025FN" "x17/09/2025FN" ⟨2025, 9, 17⟩ ⟨2025, 9, 17⟩ 1479022
    "FN" "FN" (by decide) (by decide)

/-- Claim C9: for a group whose two date tokens decode, the authority text
never makes the group fail — the loop body emits its segment(s) whatever the
raw authority capture is (including the empty capture), and the emitted
segments differ only in the rendered sanction-authority field. -/
theorem c9_authority_optional (row : Row) (leave_type : String) (b : Nat) (a1 a2 : String)
    {f t : String} {d1 d2 : DateObj} {fv tv : Nat} {h1 h2 : String}
    (hf : get_half_day_value f = some (d1, fv, h1))
    (ht : get_half_day_value t = some (d2, tv, h2)) :
    processGroup row leave_type b f t a1 ≠ [] ∧
    (processGroup row leave_type b f t a1).map eraseSanction =
      (processGroup row leave_type b f t a2).map eraseSanction := by
  refine ⟨processGroup_ne_nil row leave_type a1 b hf ht, ?_⟩
  rw [processGroup_eq row leave_type a1 b hf ht, processGroup_eq row leave_type a2 b hf ht]
  by_cases hc : (leave_type ∈ (["LAP", "LHAP", "COL"] : List String)) ∧ fv ≤ b ∧ tv > b
  · rw [if_pos hc, if_pos hc]
    rfl
  · rw [if_neg hc, if_neg hc]
    rfl

theorem c9_authority_optional_witness :
    processGroup row0 "CL" boundaryVal "05/09/2025AN" "05/09/2025AN" "" ≠ [] ∧
    (processGroup row0 "CL" boundaryVal "05/09/2025AN" "05/09/2025AN" "").map eraseSanction =
      (processGroup row0 "CL" boundaryVal "05/09/2025AN" "05/09/2025AN" "(JUNK").map eraseSanction :=
  @c9_authority_optional row0 "CL" boundaryVal "" "(JUNK" "05/09/2025AN" "05/09/2025AN"
    ⟨2025, 9, 5⟩ ⟨2025, 9, 5⟩ 1478999 1478999 "AN" "AN" (by decide) (by decide)

/-- Claim C10: every group the pattern extracts has an authority capture with
no `)` in it (the capture class is `[^)]*`), so splitting that capture on
`)` always yields exactly one part, the separate authority-name branch is
never taken, and the rendered field is `"(" ++ trimmed capture ++ ") "` with
an empty name component. -/
theorem c10_sanction_shape :
    (∀ (s : String) (g : String × String × String),
        g ∈ findGroups s → (')' : Char) ∉ g.2.2.data) ∧
    (∀ a : String, (')' : Char) ∉ a.data →
        splitRP a.data = [a.data] ∧
        sanctionOf a = "(" ++ (⟨pyStrip a.data⟩ : String) ++ ") ") := by
  constructor
  · intro s g hg
    unfold findGroups at hg
    exact findGroupsAux_auth _ _ hg
  · intro a ha
    have hs := splitRP_no_rparen ha
    refine ⟨hs, ?_⟩
    unfold sanctionOf
    rw [hs]
    simp [pyStrip]

theorem c10_sanction_shape_witness :
    (')' : Char) ∉ ("AB" : String).data ∧
    splitRP ("AB" : String).data = [("AB" : String).data] ∧
    sanctionOf "AB" = "(" ++ (⟨pyStrip ("AB" : String).data⟩ : String) ++ ") " :=
  ⟨c10_sanction_shape.1 "12/09/2025FN-13/09/2025AN (AB)" ("12/09/2025FN", "13/09/2025AN", "AB")
      (by decide),
   (c10_sanction_shape.2 "AB" (by decide)).1,
   (c10_sanction_shape.2 "AB" (by decide)).2⟩

theorem c5_amended_witness :
    processGroup row0 "LAP" boundaryVal "28/09/2025FN" "03/10/2025AN" "PO123" =
      [ mkRecord row0 "LAP" "28/09/2025FN" "30/09/2025AN" (some 3) (sanctionOf "PO123"),
        mkRecord row0 "LAP" "01/10/2025FN" "03/10/2025AN" (some 3) (sanctionOf "PO123") ] ∧
    parse_and_split_leave row0 = [] :=
  ⟨c5_amended.1 row0 "PO123", c5_amended.2 row0⟩

theorem c6_amended_witness :
    (get_half_day_value "x17/09/2025FN").isSome = true ↔
      ∃ i t, tokAt (("x17/09/2025FN" : String).data.drop i) = some t ∧
        (∀ j, j < i → tokAt (("x17/09/2025FN" : String).data.drop j) = none) ∧
        ValidDate t.year t.month t.day :=
  c6_amended "x17/09/2025FN"

theorem c7_resilience_witness :
    parse_and_split_leave ⟨"A Kumar", "HR001", "IP001", "Clerk",
        "CL 1.0 days (05/09/2025AN-05/09/2025AN (PO7) X) LAP 2.0 days (12/09/2025FN-13/09/2025AN (ABC Director"⟩ =
      parse_and_split_leave ⟨"A Kumar", "HR001", "IP001", "Clerk",
        "CL 1.0 days (05/09/2025AN-05/09/2025AN (PO7) X)"⟩ ∧
    findGroups "12/09/2025FN-13/09/2025AN (ABC Director" = [] ∧
    processGroup ⟨"A Kumar", "HR001", "IP001", "Clerk", ""⟩ "CL" boundaryVal
      "31/02/2025FN" "05/09/2025AN" "PO2" = [] :=
  c7_resilience "A Kumar" "HR001" "IP001" "Clerk"

end Leave

